import Mathlib

/-!
Verification of the AI-Continuous-Cloud-ATO compliance pipeline.

The repository ships a React frontend (Dashboard, Approvals, ControlCockpit,
DriftTimeline, CloudAccounts pages) together with architecture documentation
(AGENT_WORKFLOW.md, MCP tool schemas, A2A protocol, README data model).  The
backend core (MCP Tool Router, Policy Engine, Approval Gate, Committee
Reconciler, Evidence Vault) is documented but its implementation is not part
of the sources; those components are modelled here from the specification and
checked against the frontend code and the documented rules.

Frontend functions (list filtering on the Approvals page, the confidence
percentage rendering of the Control Cockpit, the severity colour table of
the Drift Timeline, the regions parsing of the Cloud Accounts form) are
embedded directly from the TypeScript sources.
-/

namespace ATO

/-- Severity levels of the data model: README "Key Enumerations" lists
exactly `low`, `moderate`, `high`, `critical`. -/
inductive Severity where
  | low
  | moderate
  | high
  | critical
deriving DecidableEq

/-- Wire representation of a severity value, as it appears in the JSON
payloads consumed by the frontend. -/
def Severity.toWire : Severity → String
  | .low => "low"
  | .moderate => "moderate"
  | .high => "high"
  | .critical => "critical"

/-- Colour triple used by the DriftTimeline severity colour coding. -/
structure SeverityColor where
  bg : String
  text : String
  border : String
deriving DecidableEq

/-- Embedding of the `severityColors` record of DriftTimeline: a partial map
from severity strings to colour triples; the component also carries entries
for the extra strings "medium" and "info". -/
def severityColors (s : String) : Option SeverityColor :=
  if s = "critical" then some ⟨"#fef2f2", "#991b1b", "#ef4444"⟩
  else if s = "high" then some ⟨"#fff7ed", "#9a3412", "#f97316"⟩
  else if s = "moderate" then some ⟨"#fffbeb", "#92400e", "#eab308"⟩
  else if s = "medium" then some ⟨"#fffbeb", "#92400e", "#eab308"⟩
  else if s = "low" then some ⟨"#f0fdf4", "#166534", "#22c55e"⟩
  else if s = "info" then some ⟨"#eff6ff", "#1e40af", "#3b82f6"⟩
  else none

/-- Embedding of `severityColors[event.severity] || severityColors.info`:
the colour actually used for a drift event, falling back to the info colour. -/
def driftSeverityColor (s : String) : SeverityColor :=
  (severityColors s).getD ⟨"#eff6ff", "#1e40af", "#3b82f6"⟩

/-- Assessment status values of the data model (README "Key Enumerations"). -/
inductive AStatus where
  | pass
  | fail
  | partialCompliance
  | notApplicable
  | manualReviewRequired
deriving DecidableEq

/-- Assessment row as received by the Control Cockpit page (interface
`Assessment` of the cockpit source).  The JSON `number` of the `confidence`
field is modelled as a rational. -/
structure Assessment where
  id : String
  control_id : String
  framework : String
  status : String
  confidence : ℚ
  rationale : String
  provider : String
deriving DecidableEq

/-- Rounding performed by JavaScript `x.toFixed(0)`: round to the nearest
integer, ties away from zero. -/
def toFixed0 (q : ℚ) : ℤ :=
  if 0 ≤ q then ⌊q + 1/2⌋ else -⌊-q + 1/2⌋

/-- Embedding of the cockpit confidence cell `(a.confidence * 100).toFixed(0)`. -/
def renderedConfidencePct (a : Assessment) : ℤ :=
  toFixed0 (a.confidence * 100)

/-- Modelled from the spec: the data-model invariant that an Assessment
confidence is a real number in the interval from 0 to 1 (the backend that
enforces it is not part of the sources; the frontend type is a bare number). -/
def confidenceInRange (a : Assessment) : Prop :=
  0 ≤ a.confidence ∧ a.confidence ≤ 1

instance (a : Assessment) : Decidable (confidenceInRange a) := by
  unfold confidenceInRange; infer_instance

/-- Approval request row as received by the Approvals page (interface
`ApprovalRequest` of Approvals.tsx). -/
structure ApprovalView where
  id : String
  run : String
  system : String
  action_type : String
  affected_controls : List String
  severity : String
  status : String
  requested_by_agent : String
  reviewed_by : String
  reviewed_at : Option String
  review_notes : String
  created_at : String
deriving DecidableEq

/-- Embedding of the Pending filter of the Approvals page: keep the
requests whose status equals the string pending. -/
def pendingOf (l : List ApprovalView) : List ApprovalView :=
  l.filter (fun a => a.status == "pending")

/-- Embedding of the Review History filter of the Approvals page: keep the
requests whose status differs from the string pending. -/
def reviewedOf (l : List ApprovalView) : List ApprovalView :=
  l.filter (fun a => !(a.status == "pending"))

/-! Regions parsing of the Cloud Accounts form.  The handler submits
the regions input split on the comma character, each piece trimmed, and
falsy (empty) pieces dropped; JavaScript strings are embedded as lists of
characters and the three string operations are given their JavaScript
semantics. -/

/-- JavaScript `String.prototype.split(sep)` for a one-character separator:
`""` splits to `[""]`, and a separator at either end produces an empty piece. -/
def jsSplit (sep : Char) : List Char → List (List Char)
  | [] => [[]]
  | c :: cs =>
    if c = sep then [] :: jsSplit sep cs
    else
      match jsSplit sep cs with
      | [] => [[c]]
      | p :: ps => (c :: p) :: ps

/-- JavaScript `String.prototype.trim()`: drop leading and trailing
whitespace. -/
def jsTrim (s : List Char) : List Char :=
  ((s.dropWhile Char.isWhitespace).reverse.dropWhile Char.isWhitespace).reverse

/-- Embedding of the regions expression of `handleCreateAccount`:
split on commas, trim each piece, drop falsy pieces (the Boolean coercion
drops exactly the empty strings). -/
def regionsOf (s : List Char) : List (List Char) :=
  ((jsSplit ',' s).map jsTrim).filter (fun r => !r.isEmpty)

/-! SHA-256, the hash the Evidence Vault attaches to every artifact.
Implemented over byte lists (naturals below 256), all word arithmetic
explicitly reduced modulo 2^32. -/

/-- Truncate to a 32-bit word. -/
def w32 (n : Nat) : Nat := n % 4294967296

/-- Rotate a 32-bit word right by `n` bits. -/
def rotr (x n : Nat) : Nat := w32 ((x >>> n) ||| (x <<< (32 - n)))

/-- Big-endian byte decomposition of a natural into `k` bytes. -/
def bytesBE : Nat → Nat → List Nat
  | 0, _ => []
  | k + 1, n => bytesBE k (n / 256) ++ [n % 256]

/-- Assemble one 32-bit word from four bytes, big-endian. -/
def word32OfBytes (a b c d : Nat) : Nat :=
  ((a * 256 + b) * 256 + c) * 256 + d

/-- Group a byte list into 32-bit words, four bytes at a time. -/
def toWords : List Nat → List Nat
  | a :: b :: c :: d :: rest => word32OfBytes a b c d :: toWords rest
  | _ => []

/-- SHA-256 round constants. -/
def K256 : List Nat :=
  [1116352408, 1899447441, 3049323471, 3921009573, 961987163,
   1508970993, 2453635748, 2870763221, 3624381080, 310598401,
   607225278, 1426881987, 1925078388, 2162078206, 2614888103,
   3248222580, 3835390401, 4022224774, 264347078, 604807628,
   770255983, 1249150122, 1555081692, 1996064986, 2554220882,
   2821834349, 2952996808, 3210313671, 3336571891, 3584528711,
   113926993, 338241895, 666307205, 773529912, 1294757372,
   1396182291, 1695183700, 1986661051, 2177026350, 2456956037,
   2730485921, 2820302411, 3259730800, 3345764771, 3516065817,
   3600352804, 4094571909, 275423344, 430227734, 506948616,
   659060556, 883997877, 958139571, 1322822218, 1537002063,
   1747873779, 1955562222, 2024104815, 2227730452, 2361852424,
   2428436474, 2756734187, 3204031479, 3329325298]

/-- SHA-256 initial hash value. -/
def H256 : List Nat :=
  [1779033703, 3144134277, 1013904242, 2773480762,
   1359893119, 2600822924, 528734635, 1541459225]

/-- Message-schedule sigma functions. -/
def smallSigma0 (x : Nat) : Nat := rotr x 7 ^^^ rotr x 18 ^^^ (x >>> 3)

/-- Second message-schedule sigma function. -/
def smallSigma1 (x : Nat) : Nat := rotr x 17 ^^^ rotr x 19 ^^^ (x >>> 10)

/-- Compression sigma functions. -/
def bigSigma0 (x : Nat) : Nat := rotr x 2 ^^^ rotr x 13 ^^^ rotr x 22

/-- Second compression sigma function. -/
def bigSigma1 (x : Nat) : Nat := rotr x 6 ^^^ rotr x 11 ^^^ rotr x 25

/-- Choice function. -/
def chF (x y z : Nat) : Nat := (x &&& y) ^^^ ((x ^^^ 0xffffffff) &&& z)

/-- Majority function. -/
def majF (x y z : Nat) : Nat := (x &&& y) ^^^ (x &&& z) ^^^ (y &&& z)

/-- One message-schedule extension step: append word 16 ≤ i < 64. -/
def scheduleStep (acc : List Nat) : List Nat :=
  acc ++ [w32 (smallSigma1 (acc.getD (acc.length - 2) 0) +
               acc.getD (acc.length - 7) 0 +
               smallSigma0 (acc.getD (acc.length - 15) 0) +
               acc.getD (acc.length - 16) 0)]

/-- Extend the 16 block words to the 64-entry message schedule. -/
def schedule (ws : List Nat) : List Nat :=
  (List.range 48).foldl (fun acc _ => scheduleStep acc) ws

/-- One round of the SHA-256 compression function on the eight-word working
state, given the pair of schedule word and round constant. -/
def compressStep (st : List Nat) (wk : Nat × Nat) : List Nat :=
  let a := st.getD 0 0
  let b := st.getD 1 0
  let c := st.getD 2 0
  let d := st.getD 3 0
  let e := st.getD 4 0
  let f := st.getD 5 0
  let g := st.getD 6 0
  let h := st.getD 7 0
  let t1 := w32 (h + bigSigma1 e + chF e f g + wk.2 + wk.1)
  let t2 := w32 (bigSigma0 a + majF a b c)
  [w32 (t1 + t2), a, b, c, w32 (d + t1), e, f, g]

/-- Process one 64-byte block into the running hash value. -/
def processBlock (hv : List Nat) (block : List Nat) : List Nat :=
  let ws := schedule (toWords block)
  let st := (ws.zip K256).foldl compressStep hv
  (hv.zip st).map (fun p => w32 (p.1 + p.2))

/-- SHA-256 padding: append 0x80, zero bytes up to 56 mod 64, then the bit
length as eight big-endian bytes. -/
def sha256pad (msg : List Nat) : List Nat :=
  let zeros := (119 - msg.length % 64) % 64
  msg ++ [128] ++ List.replicate zeros 0 ++ bytesBE 8 (8 * msg.length)

/-- Split a byte list into 64-byte chunks. -/
def chunks64 (l : List Nat) : List (List Nat) :=
  if h : l = [] then []
  else
    have : l.length - 64 < l.length := by
      have hpos : 0 < l.length := List.length_pos.mpr h
      omega
    l.take 64 :: chunks64 (l.drop 64)
termination_by l.length
decreasing_by simpa using this

/-- SHA-256 digest of a byte list, as a list of 32 bytes. -/
def sha256 (msg : List Nat) : List Nat :=
  ((chunks64 (sha256pad msg)).foldl processBlock H256).map (bytesBE 4) |>.flatten

/-! Evidence Store.  Modelled from the spec: the Evidence Vault
(`evidence_vault.py`, not among the sources) exposes
`put(bytes) → (uri, sha256Hash)` and `get(uri) → bytes`, and storage is
write-once — overwriting an occupied uri is rejected, never silently
replaced.  Uris are modelled as the naturals issued by the store counter. -/

/-- Content store state: the next fresh uri and the stored objects. -/
structure EvidenceStore where
  nextId : Nat
  objects : List (Nat × List Nat)
deriving DecidableEq

/-- Modelled from the spec: `put(bytes)` stores the bytes at a fresh uri and
returns the uri together with the SHA-256 digest of the bytes. -/
def putBytes (s : EvidenceStore) (b : List Nat) : EvidenceStore × Nat × List Nat :=
  (⟨s.nextId + 1, s.objects ++ [(s.nextId, b)]⟩, s.nextId, sha256 b)

/-- Modelled from the spec: `get(uri)` returns the bytes stored at the uri. -/
def getBytes (s : EvidenceStore) (uri : Nat) : Option (List Nat) :=
  (s.objects.find? (fun p => p.1 == uri)).map Prod.snd

/-- Modelled from the spec: writing at an explicit uri is rejected when the
uri is already occupied (write-once storage). -/
def putAt (s : EvidenceStore) (uri : Nat) (b : List Nat) : Except String EvidenceStore :=
  if s.objects.any (fun p => p.1 == uri) then
    Except.error "uri already occupied: write-once store"
  else
    Except.ok ⟨s.nextId, s.objects ++ [(uri, b)]⟩

/-- Store well-formedness: every stored uri was issued by the counter. -/
def EvidenceStore.WF (s : EvidenceStore) : Prop :=
  ∀ p ∈ s.objects, p.1 < s.nextId

/-! Tool Router.  Modelled from the spec: the MCP Router (`router.py`, not
among the sources) mediates every provider call, consulting the Policy
Engine in order (`isToolAllowed`, `checkRateLimit`, `requiresApproval`) and
writing exactly one audit record per invocation; the MCP Router Flow diagram
shows the same sequence. -/

/-- Outcome recorded in a ToolCallRecord. -/
inductive Outcome where
  | success
  | denied
  | rateLimited
  | approvalPending
  | errored
deriving DecidableEq

/-- Audit Log entry for one Tool Router invocation (ToolCallRecord of the
data model, restricted to the attributes the router model populates). -/
structure ToolCallRecord where
  callId : Nat
  agentId : String
  toolName : String
  provider : String
  outcome : Outcome
  outputHash : Option (List Nat)
deriving DecidableEq

/-- Declarative policy tables consulted by the router (Policy Engine
contract: `isToolAllowed(agentId, toolName, provider)`,
`checkRateLimit(agentId, toolName)`, approval classification by action). -/
structure PolicyEngine where
  isToolAllowed : String → String → String → Bool
  checkRateLimit : String → String → Bool
  requiresApproval : String → Bool

/-- Router-owned state: the append-only audit log and the call counter. -/
structure RouterState where
  auditLog : List ToolCallRecord
  nextCallId : Nat
deriving DecidableEq

/-- Append one audit record; the only way the router writes the log. -/
def writeAudit (st : RouterState) (agentId toolName provider : String)
    (oc : Outcome) (hash : Option (List Nat)) : RouterState :=
  ⟨st.auditLog ++ [⟨st.nextCallId, agentId, toolName, provider, oc, hash⟩],
   st.nextCallId + 1⟩

/-- Reply the router returns to the calling agent. -/
inductive InvokeReply where
  | okReply (result : String) (hash : List Nat)
  | deniedReply
  | rateLimitedReply
  | approvalPendingReply
  | errorReply (message : String)
deriving DecidableEq

/-- Byte view of a provider result, input to the output hash. -/
def strBytes (s : String) : List Nat := s.data.map Char.toNat

/-- Modelled from the spec: `invoke(agentId, toolName, provider, params)` of
the Tool Router.  Policy denial, rate limiting and approval classification
each short-circuit before the provider collaborator is consulted; every
branch writes exactly one audit record. -/
def invoke (pe : PolicyEngine)
    (providerCall : String → String → List (String × String) → Except String String)
    (st : RouterState) (agentId toolName provider : String)
    (params : List (String × String)) : RouterState × InvokeReply :=
  if pe.isToolAllowed agentId toolName provider then
    if pe.checkRateLimit agentId toolName then
      if pe.requiresApproval toolName then
        (writeAudit st agentId toolName provider Outcome.approvalPending none,
         InvokeReply.approvalPendingReply)
      else
        match providerCall toolName provider params with
        | Except.ok res =>
            (writeAudit st agentId toolName provider Outcome.success
               (some (sha256 (strBytes res))),
             InvokeReply.okReply res (sha256 (strBytes res)))
        | Except.error e =>
            (writeAudit st agentId toolName provider Outcome.errored none,
             InvokeReply.errorReply e)
    else
      (writeAudit st agentId toolName provider Outcome.rateLimited none,
       InvokeReply.rateLimitedReply)
  else
    (writeAudit st agentId toolName provider Outcome.denied none,
     InvokeReply.deniedReply)

/-! Approval Gate.  Modelled from the spec: `evaluate(runContext)` suspends
when a critical/high failing assessment, an open top-category STIG finding,
a critical drift event, or a committee escalation exists, and auto-passes
otherwise (Approval Gate Rules table of AGENT_WORKFLOW.md). -/

/-- STIG finding category (CAT I is the top severity category). -/
inductive StigCategory where
  | catI
  | catII
  | catIII
deriving DecidableEq

/-- Assessment as seen by the gate: control, status, and the severity the
gap analysis attached to the finding. -/
structure GateAssessment where
  controlId : String
  status : AStatus
  severity : Severity
deriving DecidableEq

/-- STIG posture finding as seen by the gate. -/
structure StigFinding where
  findingId : String
  category : StigCategory
  isOpen : Bool
deriving DecidableEq

/-- Drift event as seen by the gate. -/
structure GateDriftEvent where
  eventId : String
  severity : Severity
  resolved : Bool
deriving DecidableEq

/-- Committee escalation record attached to the run context. -/
structure CommitteeEscalation where
  controlIds : List String
  statusA : AStatus
  statusB : AStatus
deriving DecidableEq

/-- Slice of the run context the Approval Gate inspects. -/
structure GateContext where
  assessments : List GateAssessment
  stigFindings : List StigFinding
  driftEvents : List GateDriftEvent
  escalations : List CommitteeEscalation
deriving DecidableEq

/-- Gate decision: continue automatically or suspend for a human decision. -/
inductive GateDecision where
  | autoPass
  | suspend
deriving DecidableEq

/-- Modelled from the spec: the Approval Gate `evaluate(runContext)`
threshold rule. -/
def evaluate (rc : GateContext) : GateDecision :=
  if rc.assessments.any (fun a =>
        a.status == AStatus.fail &&
        (a.severity == Severity.critical || a.severity == Severity.high)) ||
     rc.stigFindings.any (fun f => f.isOpen && f.category == StigCategory.catI) ||
     rc.driftEvents.any (fun d => d.severity == Severity.critical) ||
     !rc.escalations.isEmpty then
    GateDecision.suspend
  else
    GateDecision.autoPass

/-! Approval requests and the review surface.  Modelled from the spec: the
backend `/api/approvals/(id)/review/` endpoint (not among the sources)
accepts a decision, reviewer identity and optional notes, and must reject
the submission when the request is not pending; the frontend reviewMutation
posts exactly that payload. -/

/-- Status of an ApprovalRequest. -/
inductive ApprovalStatus where
  | pending
  | approved
  | rejected
deriving DecidableEq

/-- Decision a reviewer may submit (the surface accepts exactly these two). -/
inductive Decision where
  | approved
  | rejected
deriving DecidableEq

/-- Terminal status resulting from a decision. -/
def Decision.toStatus : Decision → ApprovalStatus
  | .approved => ApprovalStatus.approved
  | .rejected => ApprovalStatus.rejected

/-- ApprovalRequest of the data model (identifier, run, proposed action,
affected controls, severity, status, decision metadata). -/
structure ApprovalReq where
  id : String
  runId : String
  actionType : String
  affectedControls : List String
  severity : Severity
  status : ApprovalStatus
  reviewedBy : Option String
  reviewNotes : Option String
deriving DecidableEq

/-- Modelled from the spec: applying a review decision to one request; only
a pending request may be decided, anything else is rejected. -/
def review (req : ApprovalReq) (d : Decision) (reviewer : String)
    (notes : Option String) : Except String ApprovalReq :=
  if req.status = ApprovalStatus.pending then
    Except.ok { req with
      status := d.toStatus
      reviewedBy := some reviewer
      reviewNotes := notes }
  else
    Except.error "approval request is not pending"

/-- Modelled from the spec: the approval decision surface — locate the
request by identifier and apply the review, propagating the rejection when
the request is missing or not pending. -/
def submitReview (reqs : List ApprovalReq) (reqId : String) (d : Decision)
    (reviewer : String) (notes : Option String) : Except String (List ApprovalReq) :=
  match reqs.find? (fun r => r.id == reqId) with
  | none => Except.error "approval request not found"
  | some req =>
    match review req d reviewer notes with
    | Except.error e => Except.error e
    | Except.ok req2 =>
        Except.ok (reqs.map (fun r => if r.id == reqId then req2 else r))

/-! Committee Reconciler.  Modelled from the spec:
`reconcile(controlIds, evidenceRefs, assessorAgents[2])` runs both assessor
agents independently on the shared evidence, merges on identical status
taking the higher-confidence rationale, and escalates on any status
mismatch. -/

/-- Output of one assessor agent over the given controls and evidence. -/
structure AssessorReport where
  status : AStatus
  confidence : ℚ
  rationale : String
deriving DecidableEq

/-- Merged assessment produced on committee agreement. -/
structure CommitteeAssessment where
  controlIds : List String
  status : AStatus
  confidence : ℚ
  rationale : String
  committeeConfirmed : Bool
deriving DecidableEq

/-- Escalation record produced on committee disagreement; it feeds the
Approval Gate as a mandatory-approval item. -/
structure EscalationRec where
  controlIds : List String
  statusA : AStatus
  statusB : AStatus
  mandatoryApproval : Bool
deriving DecidableEq

/-- Result of committee reconciliation. -/
inductive ReconcileResult where
  | merged (a : CommitteeAssessment)
  | escalated (e : EscalationRec)
deriving DecidableEq

/-- Whether a reconciliation result is an auto-merged assessment. -/
def ReconcileResult.isMerged : ReconcileResult → Bool
  | .merged _ => true
  | .escalated _ => false

/-- Modelled from the spec: run the two assessors independently on the same
controls and evidence, then merge on identical status (keeping the
higher-confidence rationale, first assessor winning ties) or escalate on
any mismatch. -/
def reconcile (controlIds evidenceRefs : List String)
    (assessorA assessorB : List String → List String → AssessorReport) :
    ReconcileResult :=
  let r1 := assessorA controlIds evidenceRefs
  let r2 := assessorB controlIds evidenceRefs
  if r1.status = r2.status then
    ReconcileResult.merged
      ⟨controlIds, r1.status, max r1.confidence r2.confidence,
       if r2.confidence ≤ r1.confidence then r1.rationale else r2.rationale,
       true⟩
  else
    ReconcileResult.escalated ⟨controlIds, r1.status, r2.status, true⟩

/-! Concrete sample values used to exercise the theorems on closed inputs. -/

/-- Policy table that allows no tool at all. -/
def denyAllPE : PolicyEngine :=
  ⟨fun _ _ _ => false, fun _ _ => true, fun _ => false⟩

/-- Provider collaborator that always succeeds. -/
def okProviderCall : String → String → List (String × String) → Except String String :=
  fun _ _ _ => Except.ok "inventory"

/-- Provider collaborator that always fails. -/
def errProviderCall : String → String → List (String × String) → Except String String :=
  fun _ _ _ => Except.error "provider unreachable"

/-- Router state with an empty audit log. -/
def emptyRouterState : RouterState := ⟨[], 0⟩

/-- Assessor that passes the control with high confidence. -/
def passAssessorHi : List String → List String → AssessorReport :=
  fun _ _ => ⟨AStatus.pass, 9/10, "configuration matches baseline"⟩

/-- Assessor that passes the control with low confidence. -/
def passAssessorLo : List String → List String → AssessorReport :=
  fun _ _ => ⟨AStatus.pass, 1/2, "evidence partly stale"⟩

/-- Assessor that fails the control. -/
def failAssessor : List String → List String → AssessorReport :=
  fun _ _ => ⟨AStatus.fail, 3/4, "encryption disabled"⟩

/-- Evidence store holding one object at uri 0. -/
def sampleStore : EvidenceStore := ⟨1, [(0, [1, 2, 3])]⟩

/-- A pending approval request. -/
def pendingReq : ApprovalReq :=
  ⟨"ar-1", "run-1", "create_poam", ["AC-2"], Severity.critical,
   ApprovalStatus.pending, none, none⟩

/-- An already-approved approval request. -/
def approvedReq : ApprovalReq :=
  ⟨"ar-2", "run-1", "create_ticket", ["AC-17"], Severity.high,
   ApprovalStatus.approved, some "admin@example.com", none⟩

/-- A sample assessment rendered by the cockpit. -/
def sampleAssessment : Assessment :=
  ⟨"a1", "AC-2", "fedramp", "pass", 1/2, "ok", "aws"⟩

/-! General helper lemmas. -/

theorem length_filter_add_length_filter_not {α : Type} (p : α → Bool) (l : List α) :
    (l.filter p).length + (l.filter (fun a => !p a)).length = l.length := by
  induction l with
  | nil => simp
  | cons x xs ih =>
    cases hx : p x <;> simp [List.filter_cons, hx] <;> omega

theorem find?_append_all_false {α : Type} {p : α → Bool} {l1 l2 : List α}
    (h : ∀ x ∈ l1, p x = false) : (l1 ++ l2).find? p = l2.find? p := by
  induction l1 with
  | nil => rfl
  | cons x xs ih =>
    have hx := h x (by simp)
    simp only [List.cons_append, List.find?, hx]
    exact ih (fun y hy => h y (by simp [hy]))

/-! Claim theorems. -/

/-- C9: the Pending and Review History sections of the Approvals page
partition the fetched list — a request is in Pending iff its status is
`pending`, in Review History iff not, and the two counts sum to the total. -/
theorem approvals_partition (l : List ApprovalView) (a : ApprovalView) :
    (a ∈ pendingOf l ↔ a ∈ l ∧ a.status = "pending") ∧
    (a ∈ reviewedOf l ↔ a ∈ l ∧ a.status ≠ "pending") ∧
    (pendingOf l).length + (reviewedOf l).length = l.length := by
  refine ⟨?_, ?_, length_filter_add_length_filter_not _ l⟩
  · simp [pendingOf, List.mem_filter]
  · simp [reviewedOf, List.mem_filter]

/-- C8: the severity enumeration has exactly the four values low, moderate,
high, critical; their wire strings are exactly the four documented ones, and
each of the four is rendered by the DriftTimeline colour table without
falling back. -/
theorem severity_exactly_four :
    (∀ s : Severity, s.toWire ∈ ["low", "moderate", "high", "critical"]) ∧
    ["low", "moderate", "high", "critical"] =
      [Severity.low.toWire, Severity.moderate.toWire,
       Severity.high.toWire, Severity.critical.toWire] ∧
    (["low", "moderate", "high", "critical"].all
       (fun w => (severityColors w).isSome)) = true := by
  refine ⟨fun s => ?_, rfl, by decide⟩
  cases s <;> simp [Severity.toWire]

/-- C7: when an assessment confidence lies in the unit interval, the
percentage the Control Cockpit renders for it lies between 0 and 100. -/
theorem renderedConfidence_in_range (a : Assessment) (h : confidenceInRange a) :
    0 ≤ renderedConfidencePct a ∧ renderedConfidencePct a ≤ 100 := by
  obtain ⟨h0, h1⟩ := h
  have hq0 : (0 : ℚ) ≤ a.confidence * 100 := by positivity
  unfold renderedConfidencePct toFixed0
  rw [if_pos hq0]
  constructor
  · exact Int.le_floor.mpr (by push_cast; linarith)
  · have hle : a.confidence * 100 + 1 / 2 ≤ 201 / 2 := by linarith
    have h201 : ⌊(201 : ℚ) / 2⌋ = 100 :=
      Int.floor_eq_iff.mpr (by constructor <;> norm_num)
    calc ⌊a.confidence * 100 + 1 / 2⌋ ≤ ⌊(201 : ℚ) / 2⌋ := Int.floor_le_floor hle
      _ = 100 := h201

/-- Witness for C7 at a concrete assessment with confidence one half. -/
theorem renderedConfidence_witness :
    0 ≤ renderedConfidencePct sampleAssessment ∧
    renderedConfidencePct sampleAssessment ≤ 100 :=
  renderedConfidence_in_range sampleAssessment
    (by constructor <;> norm_num [sampleAssessment])

theorem mem_jsSplit_all {sep : Char} {pred : Char → Bool} :
    ∀ {s : List Char}, s.all pred = true →
      ∀ p ∈ jsSplit sep s, p.all pred = true := by
  intro s
  induction s with
  | nil =>
    intro _ p hp
    simp only [jsSplit, List.mem_singleton] at hp
    simp [hp]
  | cons c cs ih =>
    intro hall p hp
    rw [List.all_cons, Bool.and_eq_true] at hall
    obtain ⟨hc, hcs⟩ := hall
    rw [jsSplit] at hp
    by_cases hsep : c = sep
    · rw [if_pos hsep] at hp
      rcases List.mem_cons.mp hp with h | h
      · simp [h]
      · exact ih hcs p h
    · rw [if_neg hsep] at hp
      cases hq : jsSplit sep cs with
      | nil => rw [hq, List.mem_singleton] at hp; simp [hp, hc]
      | cons q qs =>
        rw [hq] at hp
        rcases List.mem_cons.mp hp with h | h
        · subst h
          have hq2 : q.all pred = true := ih hcs q (by rw [hq]; exact List.mem_cons_self q qs)
          simp [List.all_cons, hc, hq2]
        · exact ih hcs p (by rw [hq]; exact List.mem_cons_of_mem q h)

theorem jsTrim_of_all_whitespace {s : List Char}
    (h : s.all Char.isWhitespace = true) : jsTrim s = [] := by
  unfold jsTrim
  have h1 : s.dropWhile Char.isWhitespace = [] := by
    rw [List.dropWhile_eq_nil_iff]
    intro x hx
    exact List.all_eq_true.mp h x hx
  simp [h1]

/-- C10: the regions submitted by the Cloud Accounts form — the input split
on commas, each piece trimmed, empty pieces dropped — never contain an empty
string, and an empty or all-whitespace input yields the empty list. -/
theorem regions_no_empty (s : List Char) :
    [] ∉ regionsOf s ∧
    (s.all Char.isWhitespace = true → regionsOf s = []) := by
  constructor
  · intro hmem
    unfold regionsOf at hmem
    rw [List.mem_filter] at hmem
    simp at hmem
  · intro hws
    unfold regionsOf
    rw [List.filter_eq_nil_iff]
    intro r hr
    rw [List.mem_map] at hr
    obtain ⟨p, hp, rfl⟩ := hr
    have hall := mem_jsSplit_all hws p hp
    simp [jsTrim_of_all_whitespace hall]

/-- Witness for C10 on the all-whitespace input of a space and a tab; the
empty input is the degenerate all-whitespace case. -/
theorem regions_witness :
    [] ∉ regionsOf [' ', '\t'] ∧ regionsOf [' ', '\t'] = [] ∧
    regionsOf [] = [] :=
  ⟨(regions_no_empty [' ', '\t']).1,
   (regions_no_empty [' ', '\t']).2 (by decide),
   (regions_no_empty []).2 (by decide)⟩

/-- C2: the Approval Gate suspends exactly when a critical or high severity
failing assessment exists, an open CAT I STIG finding exists, a critical
drift event exists, or a committee escalation exists; in every other case it
auto-passes. -/
theorem evaluate_suspend_iff (rc : GateContext) :
    (evaluate rc = GateDecision.suspend ↔
      ((∃ a ∈ rc.assessments, a.status = AStatus.fail ∧
          (a.severity = Severity.critical ∨ a.severity = Severity.high)) ∨
       (∃ f ∈ rc.stigFindings, f.isOpen = true ∧ f.category = StigCategory.catI) ∨
       (∃ d ∈ rc.driftEvents, d.severity = Severity.critical) ∨
       rc.escalations ≠ [])) ∧
    (evaluate rc = GateDecision.autoPass ↔
      ¬ ((∃ a ∈ rc.assessments, a.status = AStatus.fail ∧
            (a.severity = Severity.critical ∨ a.severity = Severity.high)) ∨
         (∃ f ∈ rc.stigFindings, f.isOpen = true ∧ f.category = StigCategory.catI) ∨
         (∃ d ∈ rc.driftEvents, d.severity = Severity.critical) ∨
         rc.escalations ≠ [])) := by
  unfold evaluate
  constructor
  · split
    · rename_i hcond
      simp only [List.any_eq_true, Bool.or_eq_true, Bool.and_eq_true,
        Bool.not_eq_true', beq_iff_eq, List.isEmpty_eq_false, ne_eq,
        or_assoc] at hcond
      exact iff_of_true rfl hcond
    · rename_i hcond
      simp only [List.any_eq_true, Bool.or_eq_true, Bool.and_eq_true,
        Bool.not_eq_true', beq_iff_eq, List.isEmpty_eq_false, ne_eq,
        or_assoc] at hcond
      exact iff_of_false (by decide) hcond
  · split
    · rename_i hcond
      simp only [List.any_eq_true, Bool.or_eq_true, Bool.and_eq_true,
        Bool.not_eq_true', beq_iff_eq, List.isEmpty_eq_false, ne_eq,
        or_assoc] at hcond
      exact iff_of_false (by decide) (not_not_intro hcond)
    · rename_i hcond
      simp only [List.any_eq_true, Bool.or_eq_true, Bool.and_eq_true,
        Bool.not_eq_true', beq_iff_eq, List.isEmpty_eq_false, ne_eq,
        or_assoc] at hcond
      exact iff_of_true rfl hcond

/-- C3: a decided review moves a pending request exactly to the decided
terminal status, which is never `pending`; once a request has left `pending`
no further decision applies. -/
theorem review_status_transitions (req : ApprovalReq) (d : Decision)
    (reviewer : String) (notes : Option String) :
    (req.status = ApprovalStatus.pending →
       review req d reviewer notes =
         Except.ok { req with
           status := d.toStatus
           reviewedBy := some reviewer
           reviewNotes := notes } ∧
       d.toStatus ≠ ApprovalStatus.pending) ∧
    (req.status ≠ ApprovalStatus.pending →
       review req d reviewer notes =
         Except.error "approval request is not pending") := by
  constructor
  · intro h
    refine ⟨by simp [review, h], ?_⟩
    cases d <;> simp [Decision.toStatus]
  · intro h
    simp [review, h]

/-- Witness for C3: a pending request is approved; an already-approved
request admits no further decision. -/
theorem review_transitions_witness :
    review pendingReq Decision.approved "admin@example.com" none =
      Except.ok { pendingReq with
        status := ApprovalStatus.approved
        reviewedBy := some "admin@example.com"
        reviewNotes := none } ∧
    review approvedReq Decision.rejected "admin@example.com" none =
      Except.error "approval request is not pending" :=
  ⟨((review_status_transitions pendingReq Decision.approved "admin@example.com"
      none).1 rfl).1,
   (review_status_transitions approvedReq Decision.rejected "admin@example.com"
      none).2 (by decide)⟩

/-- C4: the decision surface takes an identifier, a decision among approved
and rejected, a reviewer and optional notes, and rejects the submission when
the targeted request is not pending. -/
theorem submitReview_rejects_non_pending (reqs : List ApprovalReq)
    (reqId : String) (d : Decision) (reviewer : String) (notes : Option String)
    (req : ApprovalReq)
    (hfind : reqs.find? (fun r => r.id == reqId) = some req)
    (hnp : req.status ≠ ApprovalStatus.pending) :
    submitReview reqs reqId d reviewer notes =
      Except.error "approval request is not pending" ∧
    (d = Decision.approved ∨ d = Decision.rejected) := by
  constructor
  · simp [submitReview, hfind, review, hnp]
  · cases d
    · exact Or.inl rfl
    · exact Or.inr rfl

/-- Witness for C4: submitting a decision against an already-approved
request is rejected. -/
theorem submitReview_non_pending_witness :
    submitReview [approvedReq] "ar-2" Decision.approved "admin@example.com"
      none = Except.error "approval request is not pending" ∧
    (Decision.approved = Decision.approved ∨
     Decision.approved = Decision.rejected) :=
  submitReview_rejects_non_pending [approvedReq] "ar-2" Decision.approved
    "admin@example.com" none approvedReq (by decide) (by decide)

/-- C5: over the same controls and evidence, identical assessor statuses
produce a merged assessment carrying the higher-confidence rationale, while
any status mismatch produces an escalation and never an auto-merged
assessment. -/
theorem reconcile_merge_or_escalate (controlIds evidenceRefs : List String)
    (fA fB : List String → List String → AssessorReport) :
    ((fA controlIds evidenceRefs).status = (fB controlIds evidenceRefs).status →
      (fB controlIds evidenceRefs).confidence ≤
          (fA controlIds evidenceRefs).confidence →
        reconcile controlIds evidenceRefs fA fB =
          ReconcileResult.merged
            ⟨controlIds, (fA controlIds evidenceRefs).status,
             max (fA controlIds evidenceRefs).confidence
               (fB controlIds evidenceRefs).confidence,
             (fA controlIds evidenceRefs).rationale, true⟩) ∧
    ((fA controlIds evidenceRefs).status = (fB controlIds evidenceRefs).status →
      (fA controlIds evidenceRefs).confidence <
          (fB controlIds evidenceRefs).confidence →
        reconcile controlIds evidenceRefs fA fB =
          ReconcileResult.merged
            ⟨controlIds, (fA controlIds evidenceRefs).status,
             max (fA controlIds evidenceRefs).confidence
               (fB controlIds evidenceRefs).confidence,
             (fB controlIds evidenceRefs).rationale, true⟩) ∧
    ((fA controlIds evidenceRefs).status ≠ (fB controlIds evidenceRefs).status →
      reconcile controlIds evidenceRefs fA fB =
        ReconcileResult.escalated
          ⟨controlIds, (fA controlIds evidenceRefs).status,
           (fB controlIds evidenceRefs).status, true⟩ ∧
      (reconcile controlIds evidenceRefs fA fB).isMerged = false) := by
  refine ⟨?_, ?_, ?_⟩
  · intro hst hle
    simp [reconcile, hst, hle]
  · intro hst hlt
    simp [reconcile, hst, not_le.mpr hlt]
  · intro hst
    constructor
    · simp [reconcile, hst]
    · simp [reconcile, hst, ReconcileResult.isMerged]

/-- Witness for C5: agreement merges keeping the higher-confidence
rationale in either order, and a pass/fail disagreement escalates. -/
theorem reconcile_witness :
    reconcile ["AC-2"] ["ev-1"] passAssessorHi passAssessorLo =
      ReconcileResult.merged
        ⟨["AC-2"], AStatus.pass, max ((9 : ℚ)/10) ((1 : ℚ)/2),
         "configuration matches baseline", true⟩ ∧
    reconcile ["AC-2"] ["ev-1"] passAssessorLo passAssessorHi =
      ReconcileResult.merged
        ⟨["AC-2"], AStatus.pass, max ((1 : ℚ)/2) ((9 : ℚ)/10),
         "configuration matches baseline", true⟩ ∧
    (reconcile ["AC-2"] ["ev-1"] passAssessorHi failAssessor =
      ReconcileResult.escalated ⟨["AC-2"], AStatus.pass, AStatus.fail, true⟩ ∧
     (reconcile ["AC-2"] ["ev-1"] passAssessorHi failAssessor).isMerged =
       false) :=
  ⟨(reconcile_merge_or_escalate ["AC-2"] ["ev-1"] passAssessorHi
      passAssessorLo).1 rfl (by norm_num [passAssessorHi, passAssessorLo]),
   (reconcile_merge_or_escalate ["AC-2"] ["ev-1"] passAssessorLo
      passAssessorHi).2.1 rfl (by norm_num [passAssessorHi, passAssessorLo]),
   (reconcile_merge_or_escalate ["AC-2"] ["ev-1"] passAssessorHi
      failAssessor).2.2 (by decide)⟩

/-- C1: every Tool Router invocation appends exactly one audit record, and a
policy denial yields a denial reply, an audit record with outcome denied,
and a result independent of the provider collaborator — no provider call is
made. -/
theorem invoke_writes_one_audit_record (pe : PolicyEngine)
    (pc pc2 : String → String → List (String × String) → Except String String)
    (st : RouterState) (agentId toolName provider : String)
    (params : List (String × String)) :
    ((invoke pe pc st agentId toolName provider params).1.auditLog.length =
       st.auditLog.length + 1) ∧
    (pe.isToolAllowed agentId toolName provider = false →
       (invoke pe pc st agentId toolName provider params).2 =
         InvokeReply.deniedReply ∧
       (invoke pe pc st agentId toolName provider params).1.auditLog =
         st.auditLog ++
           [⟨st.nextCallId, agentId, toolName, provider, Outcome.denied,
             none⟩] ∧
       invoke pe pc2 st agentId toolName provider params =
         invoke pe pc st agentId toolName provider params) := by
  constructor
  · unfold invoke writeAudit
    cases h1 : pe.isToolAllowed agentId toolName provider
    · simp
    · cases h2 : pe.checkRateLimit agentId toolName
      · simp
      · cases h3 : pe.requiresApproval toolName
        · cases hr : pc toolName provider params <;> simp [hr]
        · simp
  · intro h
    simp [invoke, h, writeAudit]

/-- Witness for C1: under a deny-all policy, the invocation writes one
denied audit record, returns the denial, and two different provider
collaborators produce the identical invocation result. -/
theorem invoke_denied_witness :
    ((invoke denyAllPE okProviderCall emptyRouterState "evidence_collector_agent"
        "get_asset_inventory" "aws" []).1.auditLog.length =
      emptyRouterState.auditLog.length + 1) ∧
    ((invoke denyAllPE okProviderCall emptyRouterState "evidence_collector_agent"
        "get_asset_inventory" "aws" []).2 = InvokeReply.deniedReply ∧
     (invoke denyAllPE okProviderCall emptyRouterState "evidence_collector_agent"
        "get_asset_inventory" "aws" []).1.auditLog =
       emptyRouterState.auditLog ++
         [⟨emptyRouterState.nextCallId, "evidence_collector_agent",
           "get_asset_inventory", "aws", Outcome.denied, none⟩] ∧
     invoke denyAllPE errProviderCall emptyRouterState "evidence_collector_agent"
        "get_asset_inventory" "aws" [] =
       invoke denyAllPE okProviderCall emptyRouterState "evidence_collector_agent"
        "get_asset_inventory" "aws" []) :=
  ⟨(invoke_writes_one_audit_record denyAllPE okProviderCall errProviderCall
      emptyRouterState "evidence_collector_agent" "get_asset_inventory" "aws"
      []).1,
   (invoke_writes_one_audit_record denyAllPE okProviderCall errProviderCall
      emptyRouterState "evidence_collector_agent" "get_asset_inventory" "aws"
      []).2 rfl⟩

/-- C6: retrieving what was just put returns bytes whose SHA-256 digest is
the digest `put` returned, and writing to an occupied uri is rejected rather
than silently replaced. -/
theorem evidenceStore_hash_integrity (s : EvidenceStore) (b bNew : List Nat)
    (uri : Nat) (hwf : s.WF) (hocc : (getBytes s uri).isSome = true) :
    (getBytes (putBytes s b).1 (putBytes s b).2.1).map sha256 =
      some (putBytes s b).2.2 ∧
    getBytes (putBytes s b).1 (putBytes s b).2.1 = some b ∧
    putAt s uri bNew =
      Except.error "uri already occupied: write-once store" := by
  have hget : getBytes (putBytes s b).1 (putBytes s b).2.1 = some b := by
    unfold getBytes putBytes
    have hall : ∀ p ∈ s.objects,
        ((fun q : Nat × List Nat => q.1 == s.nextId) p) = false := by
      intro p hp
      have := hwf p hp
      simp only [beq_eq_false_iff_ne, ne_eq]
      omega
    rw [find?_append_all_false hall]
    simp [List.find?]
  refine ⟨by rw [hget]; rfl, hget, ?_⟩
  unfold putAt
  rw [if_pos]
  rw [List.any_eq_true]
  unfold getBytes at hocc
  cases hfind : s.objects.find? (fun p => p.1 == uri) with
  | none => rw [hfind] at hocc; simp at hocc
  | some x =>
    exact ⟨x, List.mem_of_find?_eq_some hfind, by
      have := List.find?_some hfind
      simpa using this⟩

/-- Witness for C6 on a store holding one object: a fresh put round-trips
with matching digest and the occupied uri 0 rejects overwrite. -/
theorem evidenceStore_witness :
    (getBytes (putBytes sampleStore [4, 5]).1
        (putBytes sampleStore [4, 5]).2.1).map sha256 =
      some (putBytes sampleStore [4, 5]).2.2 ∧
    getBytes (putBytes sampleStore [4, 5]).1 (putBytes sampleStore [4, 5]).2.1 =
      some [4, 5] ∧
    putAt sampleStore 0 [9] =
      Except.error "uri already occupied: write-once store" :=
  evidenceStore_hash_integrity sampleStore [4, 5] [9] 0
    (by intro p hp; simp [sampleStore] at hp; simp [hp, sampleStore])
    (by decide)

end ATO
